import Mathlib

/-!
Verification of `src/signalfd_ctx.c` from the epoll-shim repository.

The file gives a shallow embedding of the signalfd emulation context:
signal sets are machine bitmasks (modelled as `Nat`), the kernel state
visible to the component is the process-level pending-signal set together
with the kqueue registration's ready bit, and every fallible OS call is
parametrised by an explicit environment value describing its outcome.
Asynchronous signal deliveries that may interleave with the code are
passed as explicit delivery lists at each interleaving point.
-/

/-- Errno value `EAGAIN` (35 on FreeBSD/OpenBSD/NetBSD). -/
def EAGAIN : Nat := 35

/-- Errno value `EWOULDBLOCK`; equal to `EAGAIN` on the BSDs. -/
def EWOULDBLOCK : Nat := 35

/-- Errno value `EINVAL` (22). -/
def EINVAL : Nat := 22

/-- Errno value `EINTR` (4), used only as a sample non-benign error. -/
def EINTR : Nat := 4

/-- Poll readiness flag `POLLIN` (0x0001). -/
def POLLIN : Nat := 1

/-- Test of `sigset_t` emptiness, `sigisemptyset` (line 17 of the source
for the OpenBSD representation: the whole mask compared with 0). -/
def sigisemptyset (s : Nat) : Bool := s == 0

/-- Intersection of two signal masks, `sigandset` (line 18 of the source:
bitwise and of the masks). -/
def sigandset (l r : Nat) : Nat := l &&& r

/-- Membership test `sigismember`: signal `i` is in mask `s` iff bit
`i - 1` of `s` is set. -/
def sigismember (s : Nat) (i : Nat) : Bool := Nat.testBit s (i - 1)

/-- Mask of a single signal, `sigmask(s) = 1 << (s - 1)` (used at source
line 158). -/
def sigmask (signum : Nat) : Nat := 1 <<< (signum - 1)

/-- Structural worker for find-first-set; the fuel argument bounds the
number of halvings and is immaterial as long as it is at least the
argument (see below). -/
def ffsAux : Nat → Nat → Nat
  | 0, _ => 0
  | fuel + 1, x =>
    if x = 0 then 0 else if x % 2 = 1 then 1 else ffsAux fuel (x / 2) + 1

/-- Find-first-set, `__builtin_ffsll` (source line 157): one plus the
index of the least significant set bit, and 0 on the zero mask. -/
def ffs (x : Nat) : Nat := ffsAux x x

theorem ffsAux_spec : ∀ (fuel x : Nat), x ≠ 0 → x ≤ fuel →
    Nat.testBit x (ffsAux fuel x - 1) = true ∧ 1 ≤ ffsAux fuel x := by
  intro fuel
  induction fuel with
  | zero => intro x hx hle; omega
  | succ fuel ih =>
    intro x hx hle
    by_cases hodd : x % 2 = 1
    · simp [ffsAux, hx, hodd]
    · have hx2 : x / 2 ≠ 0 := by omega
      have hle2 : x / 2 ≤ fuel := by omega
      obtain ⟨hbit, hpos⟩ := ih (x / 2) hx2 hle2
      constructor
      · simp only [ffsAux, hx, if_false, hodd]
        have hsub : ffsAux fuel (x / 2) + 1 - 1 = (ffsAux fuel (x / 2) - 1) + 1 := by
          omega
        rw [hsub, Nat.testBit_succ]
        exact hbit
      · simp only [ffsAux, hx, if_false, hodd]
        omega

theorem testBit_ffs {x : Nat} (h : x ≠ 0) : Nat.testBit x (ffs x - 1) = true :=
  (ffsAux_spec x x h (Nat.le_refl x)).1

theorem ffs_pos {x : Nat} (h : x ≠ 0) : 1 ≤ ffs x :=
  (ffsAux_spec x x h (Nat.le_refl x)).2

theorem lor_eq_zero_iff (a b : Nat) : a ||| b = 0 ↔ a = 0 ∧ b = 0 := by
  constructor
  · intro h
    constructor
    · apply Nat.eq_of_testBit_eq
      intro i
      have := congrArg (fun n => Nat.testBit n i) h
      simp only [Nat.testBit_or, Nat.zero_testBit] at this ⊢
      exact (Bool.or_eq_false_iff.mp this).1
    · apply Nat.eq_of_testBit_eq
      intro i
      have := congrArg (fun n => Nat.testBit n i) h
      simp only [Nat.testBit_or, Nat.zero_testBit] at this ⊢
      exact (Bool.or_eq_false_iff.mp this).2
  · rintro ⟨ha, hb⟩
    simp [ha, hb]

theorem one_shiftLeft_land_eq_zero_iff (k b : Nat) :
    (1 <<< k) &&& b = 0 ↔ Nat.testBit b k = false := by
  have hpow : (1 : Nat) <<< k = 2 ^ k := by
    rw [Nat.shiftLeft_eq, Nat.one_mul]
  rw [hpow]
  constructor
  · intro h
    have := congrArg (fun n => Nat.testBit n k) h
    simp only [Nat.testBit_and, Nat.zero_testBit, Nat.testBit_two_pow_self,
      Bool.true_and] at this
    exact this
  · intro h
    apply Nat.eq_of_testBit_eq
    intro i
    simp only [Nat.testBit_and, Nat.zero_testBit, Nat.testBit_two_pow]
    by_cases hk : k = i
    · subst hk; simp [h]
    · simp [hk]

theorem land_testBit_left {a b : Nat} {k : Nat} (h : Nat.testBit (a &&& b) k = true) :
    Nat.testBit a k = true := by
  simp only [Nat.testBit_and, Bool.and_eq_true] at h
  exact h.1

theorem land_testBit_right {a b : Nat} {k : Nat} (h : Nat.testBit (a &&& b) k = true) :
    Nat.testBit b k = true := by
  simp only [Nat.testBit_and, Bool.and_eq_true] at h
  exact h.2

/-- Kernel-visible state of one signalfd context: the process-level
pending-signal mask (the authoritative pending set restricted to no
particular mask) and the ready bit of the context's kqueue registration. -/
structure KernelState where
  pending : Nat
  ready : Bool
deriving Repr, DecidableEq

/-- Modelled from the spec: delivery of signal `i` while the context's
observer registrations are in place. The signal joins the process
pending set, and — because `signalfd_ctx_init` registered an
`EVFILT_SIGNAL` observer for every member of `sigs` (source lines 83-87)
— the registration's ready bit becomes set when `i` is monitored. This
is the observer-filter behaviour of section 2 of the spec. -/
def deliver (sigs : Nat) (i : Nat) (st : KernelState) : KernelState :=
  { pending := st.pending ||| sigmask i,
    ready := st.ready || sigismember sigs i }

/-- Delivery of a list of signals, one after the other. -/
def deliverList (sigs : Nat) (l : List Nat) (st : KernelState) : KernelState :=
  match l with
  | [] => st
  | i :: rest => deliverList sigs rest (deliver sigs i st)

/-- Whether a delivery list contains at least one monitored signal. -/
def monHit (sigs : Nat) (l : List Nat) : Bool :=
  l.any (fun i => Nat.testBit sigs (i - 1))

theorem deliverList_ready (sigs : Nat) (l : List Nat) (st : KernelState) :
    (deliverList sigs l st).ready = (st.ready || monHit sigs l) := by
  induction l generalizing st with
  | nil => simp [deliverList, monHit]
  | cons i rest ih =>
    simp only [deliverList, monHit, List.any_cons]
    rw [ih]
    simp [deliver, sigismember, monHit, Bool.or_assoc]

theorem deliverList_pending_land_zero (sigs : Nat) (l : List Nat) (st : KernelState) :
    ((deliverList sigs l st).pending &&& sigs = 0) ↔
      (st.pending &&& sigs = 0 ∧ monHit sigs l = false) := by
  induction l generalizing st with
  | nil => simp [deliverList, monHit]
  | cons i rest ih =>
    simp only [deliverList, monHit, List.any_cons]
    rw [ih]
    simp only [deliver, sigmask, Nat.and_distrib_right, lor_eq_zero_iff,
      one_shiftLeft_land_eq_zero_iff, monHit, Bool.or_eq_false_iff]
    constructor
    · rintro ⟨⟨h1, h2⟩, h3⟩
      exact ⟨h1, h2, h3⟩
    · rintro ⟨h1, h2, h3⟩
      exact ⟨⟨h1, h2⟩, h3⟩

theorem deliverList_pending_mono (sigs : Nat) (l : List Nat) (st : KernelState)
    {i : Nat} (h : Nat.testBit st.pending i = true) :
    Nat.testBit (deliverList sigs l st).pending i = true := by
  induction l generalizing st with
  | nil => simpa [deliverList]
  | cons j rest ih =>
    simp only [deliverList]
    apply ih
    simp [deliver, Nat.testBit_or, h]


/-- Outcome of one `sigpending` query as delivered by the kernel: either
a failure with an errno, or success returning the raw process pending
mask. -/
inductive SigQueryResult where
  | err (e : Nat)
  | ok (raw : Nat)
deriving Repr, DecidableEq

/-- Construction of a `sigpending` outcome from an optional injected
failure and the true pending mask at the moment of the query. -/
def mkQuery (fail : Option Nat) (raw : Nat) : SigQueryResult :=
  match fail with
  | some e => .err e
  | none => .ok raw

/-- Embedding of `signalfd_has_pending` (source lines 34-50). Returns
the triple of the function's errno result, the `has_pending` out
parameter, and the `pending` out parameter (the raw pending mask
intersected with the monitored set). On failure the out parameters are
never consulted by callers; the model returns inert values for them. -/
def signalfd_has_pending (sigs : Nat) (q : SigQueryResult) : Nat × Bool × Nat :=
  match q with
  | .err e => (e, false, 0)
  | .ok raw =>
      let p := sigandset raw sigs
      (0, !sigisemptyset p, p)

/-- Modelled from the spec: the EventTrigger `clear` operation
(`kqueue_event_clear`, declared but not defined under src/). Section 6
of the spec gives it no error result: it resets the registration's ready
state to false. -/
def kqueue_event_clear (st : KernelState) : KernelState :=
  { st with ready := false }

/-- Modelled from the spec: the EventTrigger `forceReady` operation
(`kqueue_event_trigger`, declared but not defined under src/), wrapped
by `signalfd_ctx_trigger_manually` (source lines 52-56). Section 6 of
the spec gives it no error result: it marks the registration ready. -/
def kqueue_event_trigger (st : KernelState) : KernelState :=
  { st with ready := true }

/-- Environment of one execution of `signalfd_ctx_clear_signal`: the
lists of signals delivered asynchronously at each interleaving point
(`g0` before the skip-clear check, `g1` between that check and the
clear, `g2` between the clear and the recheck, `g3` between the recheck
and the re-trigger or return, `g4` between the re-trigger and the
return), and the optional failures of the two `sigpending` queries. -/
structure ClearEnv where
  g0 : List Nat
  g1 : List Nat
  g2 : List Nat
  g3 : List Nat
  g4 : List Nat
  q1fail : Option Nat
  q2fail : Option Nat
deriving Repr, DecidableEq

/-- Quiescent environment: no interleaved deliveries and no query
failures. -/
def ClearEnv.quiet : ClearEnv := ⟨[], [], [], [], [], none, none⟩

/-- Embedding of `signalfd_ctx_clear_signal` (source lines 185-217),
with the asynchronous deliveries of `env` interleaved at each gap. A
successful `sigpending` query reports the true pending mask of the
state at the moment of the query; a failed one reports the errno from
`env`. Returns the function's boolean result (readiness reported to the
caller) and the kernel state at the moment the function returns. -/
def signalfd_ctx_clear_signal (sigs : Nat) (was_triggered : Bool)
    (st0 : KernelState) (env : ClearEnv) : Bool × KernelState :=
  let stA := deliverList sigs env.g0 st0
  let r1 := signalfd_has_pending sigs (mkQuery env.q1fail stA.pending)
  if was_triggered && (r1.1 != 0 || r1.2.1) then
    (true, stA)
  else
    let stB := deliverList sigs env.g1 stA
    let stC := kqueue_event_clear stB
    let stD := deliverList sigs env.g2 stC
    let r2 := signalfd_has_pending sigs (mkQuery env.q2fail stD.pending)
    if r2.1 != 0 || r2.2.1 then
      let stE := deliverList sigs env.g3 stD
      let stF := kqueue_event_trigger stE
      (true, deliverList sigs env.g4 stF)
    else
      (false, deliverList sigs env.g3 stD)

theorem trigger_branch_ready_and_pending (sigs : Nat) (g3 g4 : List Nat)
    (stD : KernelState) (h : stD.pending &&& sigs ≠ 0) :
    (deliverList sigs g4 (kqueue_event_trigger (deliverList sigs g3 stD))).ready = true ∧
      (deliverList sigs g4 (kqueue_event_trigger (deliverList sigs g3 stD))).pending
        &&& sigs ≠ 0 := by
  constructor
  · rw [deliverList_ready]
    simp [kqueue_event_trigger]
  · obtain ⟨i, hi⟩ := Nat.ne_zero_implies_bit_true h
    intro hzero
    have hmono : Nat.testBit (deliverList sigs g4
        (kqueue_event_trigger (deliverList sigs g3 stD))).pending i = true := by
      apply deliverList_pending_mono
      show Nat.testBit (kqueue_event_trigger (deliverList sigs g3 stD)).pending i = true
      have := deliverList_pending_mono sigs g3 stD (land_testBit_left hi)
      simpa [kqueue_event_trigger]
    have hbit : Nat.testBit ((deliverList sigs g4
        (kqueue_event_trigger (deliverList sigs g3 stD))).pending &&& sigs) i = true := by
      simp [Nat.testBit_and, hmono, land_testBit_right hi]
    rw [hzero] at hbit
    simp at hbit

theorem no_trigger_branch_iff (sigs : Nat) (g2 g3 : List Nat) (stB : KernelState)
    (h : (deliverList sigs g2 (kqueue_event_clear stB)).pending &&& sigs = 0) :
    ((deliverList sigs g3 (deliverList sigs g2 (kqueue_event_clear stB))).ready = true ↔
      (deliverList sigs g3 (deliverList sigs g2 (kqueue_event_clear stB))).pending
        &&& sigs ≠ 0) := by
  have hD := (deliverList_pending_land_zero sigs g2 (kqueue_event_clear stB)).mp h
  have hready : (deliverList sigs g2 (kqueue_event_clear stB)).ready = false := by
    rw [deliverList_ready]
    simp [kqueue_event_clear, hD.2]
  rw [deliverList_ready, hready, Bool.false_or]
  rw [ne_eq, deliverList_pending_land_zero]
  simp [h]

/-- Claim C1: for every execution of the clear-then-recheck step of read
or poll (any `was_triggered` flag, any start state whose ready bit is
set whenever the call fired because the registration was ready), and for
any interleaving of signal deliveries with the step, provided the
pending-set queries themselves succeed, the registration's ready bit on
completion is set if and only if the process pending set restricted to
the monitored set is non-empty at that moment. -/
theorem claim_C1_clear_recheck_ready_iff_pending (sigs : Nat) (wt : Bool)
    (st0 : KernelState) (env : ClearEnv)
    (hq1 : env.q1fail = none) (hq2 : env.q2fail = none)
    (hwt : wt = true → st0.ready = true) :
    ((signalfd_ctx_clear_signal sigs wt st0 env).2.ready = true ↔
      (signalfd_ctx_clear_signal sigs wt st0 env).2.pending &&& sigs ≠ 0) := by
  unfold signalfd_ctx_clear_signal
  rw [hq1, hq2]
  simp only [mkQuery, signalfd_has_pending, sigandset, sigisemptyset,
    show ((0 : Nat) != 0) = false from rfl, Bool.false_or]
  by_cases hskip :
      (wt && !((deliverList sigs env.g0 st0).pending &&& sigs == 0)) = true
  · rw [if_pos hskip]
    rw [Bool.and_eq_true] at hskip
    have hw : wt = true := hskip.1
    have hne : (deliverList sigs env.g0 st0).pending &&& sigs ≠ 0 := by
      have := hskip.2
      simpa using this
    have hready : (deliverList sigs env.g0 st0).ready = true := by
      rw [deliverList_ready, hwt hw, Bool.true_or]
    simpa [hready]
  · rw [if_neg (by simpa using hskip)]
    by_cases hp2 : ((deliverList sigs env.g2 (kqueue_event_clear
        (deliverList sigs env.g1 (deliverList sigs env.g0 st0)))).pending &&& sigs = 0)
    · rw [if_neg (by simpa using hp2)]
      exact no_trigger_branch_iff sigs env.g2 env.g3
        (deliverList sigs env.g1 (deliverList sigs env.g0 st0)) hp2
    · rw [if_pos (by simpa using hp2)]
      have := trigger_branch_ready_and_pending sigs env.g3 env.g4
        (deliverList sigs env.g2 (kqueue_event_clear
          (deliverList sigs env.g1 (deliverList sigs env.g0 st0)))) hp2
      simp [this.1, this.2]

/-- Witness for claim C1 at a concrete input: one monitored signal
already pending, registration ready, skip-clear path taken. -/
theorem claim_C1_witness :
    ((⟨[], [], [], [], [], none, none⟩ : ClearEnv).q1fail = none) ∧
    ((⟨[], [], [], [], [], none, none⟩ : ClearEnv).q2fail = none) ∧
    ((true = true → (⟨1, true⟩ : KernelState).ready = true)) ∧
    ((signalfd_ctx_clear_signal 1 true ⟨1, true⟩
        ⟨[], [], [], [], [], none, none⟩).2.ready = true ↔
      (signalfd_ctx_clear_signal 1 true ⟨1, true⟩
        ⟨[], [], [], [], [], none, none⟩).2.pending &&& 1 ≠ 0) :=
  ⟨rfl, rfl, fun _ => rfl,
    claim_C1_clear_recheck_ready_iff_pending 1 true ⟨1, true⟩
      ⟨[], [], [], [], [], none, none⟩ rfl rfl (fun _ => rfl)⟩

/-- Claim C9: a failing pending-set query inside the reconciliation step
is treated as if a monitored signal were pending. A failure of the first
query (on the skip-clear check of a triggered call) makes the step
report ready; a failure of the recheck query makes the step report ready
and re-force the registration's ready bit. Readiness can be spurious
after a query failure, but is never lost. -/
theorem claim_C9_query_failure_spurious_ready (sigs : Nat) (wt : Bool)
    (st0 : KernelState) (env : ClearEnv) :
    (∀ e, env.q1fail = some e → e ≠ 0 → wt = true →
      (signalfd_ctx_clear_signal sigs wt st0 env).1 = true) ∧
    (∀ e, env.q2fail = some e → e ≠ 0 →
      (wt = true → env.q1fail = none ∧
        (deliverList sigs env.g0 st0).pending &&& sigs = 0) →
      (signalfd_ctx_clear_signal sigs wt st0 env).1 = true ∧
      (signalfd_ctx_clear_signal sigs wt st0 env).2.ready = true) := by
  constructor
  · intro e he hne hw
    unfold signalfd_ctx_clear_signal
    rw [he, hw]
    simp [mkQuery, signalfd_has_pending, hne]
  · intro e he hne hreach
    unfold signalfd_ctx_clear_signal
    rw [he]
    have hcond : (wt && ((signalfd_has_pending sigs
        (mkQuery env.q1fail (deliverList sigs env.g0 st0).pending)).1 != 0 ||
        (signalfd_has_pending sigs
          (mkQuery env.q1fail (deliverList sigs env.g0 st0).pending)).2.1)) = false := by
      cases hwcase : wt with
      | false => rfl
      | true =>
        obtain ⟨hq1, hp0⟩ := hreach hwcase
        rw [hq1]
        simp [mkQuery, signalfd_has_pending, sigandset, sigisemptyset, hp0]
    rw [if_neg (by simp [hcond])]
    have htrig : ((signalfd_has_pending sigs (.err e)).1 != 0 ||
        (signalfd_has_pending sigs (.err e)).2.1) = true := by
      simp [signalfd_has_pending, hne]
    rw [if_pos (by simpa [mkQuery] using htrig)]
    refine ⟨rfl, ?_⟩
    rw [deliverList_ready]
    simp [kqueue_event_trigger]

/-- Witness for claim C9 at a concrete input: the recheck query fails
with `EINTR` on a non-triggered call; the step reports ready and the
ready bit is forced. -/
theorem claim_C9_witness :
    ((⟨[], [], [], [], [], none, some EINTR⟩ : ClearEnv).q2fail = some EINTR) ∧
    (EINTR ≠ 0) ∧
    ((signalfd_ctx_clear_signal 1 false ⟨0, false⟩
        ⟨[], [], [], [], [], none, some EINTR⟩).1 = true ∧
      (signalfd_ctx_clear_signal 1 false ⟨0, false⟩
        ⟨[], [], [], [], [], none, some EINTR⟩).2.ready = true) :=
  ⟨rfl, by decide,
    (claim_C9_query_failure_spurious_ready 1 false ⟨0, false⟩
        ⟨[], [], [], [], [], none, some EINTR⟩).2 EINTR rfl (by decide)
      (fun h => by cases h)⟩

/-- Embedding of `signalfd_ctx_poll` (source lines 234-245):
`was_triggered` is the non-nullity of the `revents` out pointer, the
first component of the result is the value written through `revents`
(`none` when the pointer is null), and the second is the kernel state on
return. The mutex is held for the whole body and is not modelled. -/
def signalfd_ctx_poll (sigs : Nat) (reventsNonNull : Bool)
    (st0 : KernelState) (env : ClearEnv) : Option Nat × KernelState :=
  let r := signalfd_ctx_clear_signal sigs reventsNonNull st0 env
  (if reventsNonNull then some (if r.1 then POLLIN else 0) else none, r.2)

theorem clear_signal_quiet (sigs : Nat) (wt : Bool) (st : KernelState) :
    signalfd_ctx_clear_signal sigs wt st ClearEnv.quiet =
      if wt = true ∧ st.pending &&& sigs ≠ 0 then (true, st)
      else if st.pending &&& sigs ≠ 0 then (true, ⟨st.pending, true⟩)
      else (false, ⟨st.pending, false⟩) := by
  unfold signalfd_ctx_clear_signal
  simp only [ClearEnv.quiet, deliverList, mkQuery, signalfd_has_pending,
    sigandset, sigisemptyset, kqueue_event_clear, kqueue_event_trigger,
    show ((0 : Nat) != 0) = false from rfl, Bool.false_or]
  by_cases hp : st.pending &&& sigs = 0
  · simp [hp]
  · cases wt with
    | false => simp [hp]
    | true => simp [hp]

theorem clear_signal_pending_mono (sigs : Nat) (wt : Bool) (st : KernelState)
    (env : ClearEnv) {i : Nat} (h : Nat.testBit st.pending i = true) :
    Nat.testBit (signalfd_ctx_clear_signal sigs wt st env).2.pending i = true := by
  simp only [signalfd_ctx_clear_signal]
  have hA : Nat.testBit (deliverList sigs env.g0 st).pending i = true :=
    deliverList_pending_mono sigs env.g0 st h
  split
  · exact hA
  · have hD : Nat.testBit (deliverList sigs env.g2 (kqueue_event_clear
        (deliverList sigs env.g1 (deliverList sigs env.g0 st)))).pending i = true := by
      apply deliverList_pending_mono
      show Nat.testBit (kqueue_event_clear
        (deliverList sigs env.g1 (deliverList sigs env.g0 st))).pending i = true
      simpa [kqueue_event_clear] using
        deliverList_pending_mono sigs env.g1 (deliverList sigs env.g0 st) hA
    split
    · apply deliverList_pending_mono
      show Nat.testBit (kqueue_event_trigger _).pending i = true
      simpa [kqueue_event_trigger] using
        deliverList_pending_mono sigs env.g3 _ hD
    · exact deliverList_pending_mono sigs env.g3 _ hD

/-- Claim C7: with no interleaved deliveries and no query failures,
polling twice in a row writes the same readiness value both times; a
quiescent poll leaves the process pending set exactly as it was; and
even with arbitrary interleaved deliveries, poll never removes a signal
from the process pending set. -/
theorem claim_C7_poll_idempotent_nonconsuming (sigs : Nat) (b : Bool)
    (st : KernelState) :
    ((signalfd_ctx_poll sigs b st ClearEnv.quiet).1 =
      (signalfd_ctx_poll sigs b
        (signalfd_ctx_poll sigs b st ClearEnv.quiet).2 ClearEnv.quiet).1) ∧
    ((signalfd_ctx_poll sigs b st ClearEnv.quiet).2.pending = st.pending) ∧
    (∀ (env : ClearEnv) (i : Nat), Nat.testBit st.pending i = true →
      Nat.testBit (signalfd_ctx_poll sigs b st env).2.pending i = true) := by
  refine ⟨?_, ?_, ?_⟩
  · by_cases hp : st.pending &&& sigs = 0 <;>
      cases b <;>
        simp [signalfd_ctx_poll, clear_signal_quiet, hp]
  · by_cases hp : st.pending &&& sigs = 0 <;>
      cases b <;>
        simp [signalfd_ctx_poll, clear_signal_quiet, hp]
  · intro env i h
    exact clear_signal_pending_mono sigs b st env h

/-- Witness for claim C7 at a concrete input: one pending monitored
signal, poll with a non-null `revents`, a delivery of signal 2
interleaved before the skip-clear check. -/
theorem claim_C7_witness :
    (Nat.testBit (1 : Nat) 0 = true) ∧
    ((signalfd_ctx_poll 1 true ⟨1, true⟩ ClearEnv.quiet).1 =
      (signalfd_ctx_poll 1 true
        (signalfd_ctx_poll 1 true ⟨1, true⟩ ClearEnv.quiet).2 ClearEnv.quiet).1) ∧
    (Nat.testBit (signalfd_ctx_poll 1 true ⟨1, true⟩
        ⟨[2], [], [], [], [], none, none⟩).2.pending 0 = true) :=
  ⟨by decide, (claim_C7_poll_idempotent_nonconsuming 1 true ⟨1, true⟩).1,
    (claim_C7_poll_idempotent_nonconsuming 1 true ⟨1, true⟩).2.2
      ⟨[2], [], [], [], [], none, none⟩ 0 (by decide)⟩

/-- Environment of one execution of `signalfd_ctx_init`: the results of
`pthread_mutex_init` and `kqueue_event_init` (0 is success), whether the
batch `kevent` registration succeeded together with the errno it set on
failure, and the optional failure of the pending-set query. -/
structure InitEnv where
  mutexInit : Nat
  kqInit : Nat
  keventOk : Bool
  keventErrno : Nat
  qfail : Option Nat
deriving Repr, DecidableEq

/-- Embedding of `signalfd_ctx_init` (source lines 58-112). `pending0`
is the process pending mask while `init` runs; the fresh registration
starts with a clear ready bit. Mirrors the source's sequence: mutex
creation, batch `EVFILT_SIGNAL` registration via one `kevent` call,
then the already-pending check that forces the registration ready
(lines 95-103). On any failure the partial state is torn down and the
error is returned with the registration not live (ready bit clear). -/
def signalfd_ctx_init (sigs : Nat) (pending0 : Nat) (env : InitEnv) :
    Nat × KernelState :=
  let st : KernelState := ⟨pending0, false⟩
  if env.mutexInit != 0 then (env.mutexInit, st)
  else if env.kqInit != 0 then (env.kqInit, st)
  else if !env.keventOk then (env.keventErrno, st)
  else
    let r := signalfd_has_pending sigs (mkQuery env.qfail pending0)
    if r.1 != 0 then (r.1, st)
    else if r.2.1 then (0, kqueue_event_trigger st)
    else (0, st)

/-- Claim C4: when a monitored signal is already pending at the process
level and every step of `init` succeeds, `init` returns success with the
registration forced ready, and a quiescent `poll` immediately after
`init` (no signal delivered after registration) reports ready. -/
theorem claim_C4_init_forces_ready_when_pending (sigs pending0 : Nat)
    (env : InitEnv)
    (h1 : env.mutexInit = 0) (h2 : env.kqInit = 0) (h3 : env.keventOk = true)
    (h4 : env.qfail = none) (hp : pending0 &&& sigs ≠ 0) :
    (signalfd_ctx_init sigs pending0 env).1 = 0 ∧
    (signalfd_ctx_init sigs pending0 env).2.ready = true ∧
    signalfd_ctx_poll sigs true (signalfd_ctx_init sigs pending0 env).2
        ClearEnv.quiet =
      (some POLLIN, (signalfd_ctx_init sigs pending0 env).2) := by
  have hinit : signalfd_ctx_init sigs pending0 env = (0, ⟨pending0, true⟩) := by
    simp [signalfd_ctx_init, h1, h2, h3, h4, mkQuery, signalfd_has_pending,
      sigandset, sigisemptyset, hp, kqueue_event_trigger]
  rw [hinit]
  refine ⟨rfl, rfl, ?_⟩
  simp [signalfd_ctx_poll, clear_signal_quiet, hp]

/-- Witness for claim C4 at a concrete input: signal 1 pending before
`init` of a monitor for signal set containing only signal 1, with
all OS steps succeeding. -/
theorem claim_C4_witness :
    ((⟨0, 0, true, 0, none⟩ : InitEnv).mutexInit = 0) ∧
    ((1 : Nat) &&& 1 ≠ 0) ∧
    ((signalfd_ctx_init 1 1 ⟨0, 0, true, 0, none⟩).1 = 0 ∧
      (signalfd_ctx_init 1 1 ⟨0, 0, true, 0, none⟩).2.ready = true ∧
      signalfd_ctx_poll 1 true (signalfd_ctx_init 1 1 ⟨0, 0, true, 0, none⟩).2
          ClearEnv.quiet =
        (some POLLIN, (signalfd_ctx_init 1 1 ⟨0, 0, true, 0, none⟩).2)) :=
  ⟨rfl, by decide,
    claim_C4_init_forces_ready_when_pending 1 1 ⟨0, 0, true, 0, none⟩
      rfl rfl rfl rfl (by decide)⟩

/-- Teardown bookkeeping: whether each of `terminate`'s two steps has
been attempted. -/
structure TermState where
  kqTerminated : Bool
  mutexDestroyed : Bool
deriving Repr, DecidableEq

/-- Embedding of `signalfd_ctx_terminate` (source lines 114-126).
`kqTermRes` and `mtxDestroyRes` are the results the two teardown calls
return (`kqueue_event_terminate`, then `pthread_mutex_destroy`); the
state records that each call was issued. The error aggregation mirrors
the source's `ec = ec != 0 ? ec : ec_local` chain. -/
def signalfd_ctx_terminate (kqTermRes mtxDestroyRes : Nat) (st : TermState) :
    Nat × TermState :=
  let ec : Nat := 0
  let st1 : TermState := { st with kqTerminated := true }
  let ec1 := if ec != 0 then ec else kqTermRes
  let st2 : TermState := { st1 with mutexDestroyed := true }
  let ec2 := if ec1 != 0 then ec1 else mtxDestroyRes
  (ec2, st2)

/-- Claim C8: `terminate` attempts both teardown steps regardless of the
first step's outcome, returns the first error encountered, and returns
success exactly when both steps succeed. -/
theorem claim_C8_terminate_attempts_both_returns_first_error
    (kqTermRes mtxDestroyRes : Nat) (st : TermState) :
    (signalfd_ctx_terminate kqTermRes mtxDestroyRes st).2.kqTerminated = true ∧
    (signalfd_ctx_terminate kqTermRes mtxDestroyRes st).2.mutexDestroyed = true ∧
    (signalfd_ctx_terminate kqTermRes mtxDestroyRes st).1 =
      (if kqTermRes ≠ 0 then kqTermRes else mtxDestroyRes) ∧
    ((signalfd_ctx_terminate kqTermRes mtxDestroyRes st).1 = 0 ↔
      (kqTermRes = 0 ∧ mtxDestroyRes = 0)) := by
  refine ⟨rfl, rfl, ?_, ?_⟩
  · by_cases hk : kqTermRes = 0 <;> simp [signalfd_ctx_terminate, hk]
  · by_cases hk : kqTermRes = 0 <;> simp [signalfd_ctx_terminate, hk]

/-- Outcome of one consuming-wait call (`__thrsigdivert` on the OpenBSD
variant) as delivered by the kernel: either a signal was claimed, or the
call failed setting an errno. -/
inductive WaitRes where
  | claimed (s : Nat)
  | failed (e : Nat)
deriving Repr, DecidableEq

/-- Environment of one iteration of the OpenBSD claim loop: the outcome
of the iteration's `sigpending` query and of its single-signal
consuming wait. -/
structure IterEnv where
  query : SigQueryResult
  wait : WaitRes
deriving Repr, DecidableEq

/-- Result of one iteration of the claim loop: either the loop continues
(benign wait failure), or it terminates with an errno result and an
optional write of the claimed identifier. -/
inductive StepRes where
  | retry
  | done (ec : Nat) (w : Option Nat)
deriving Repr, DecidableEq

/-- One iteration of the OpenBSD claim loop of `signalfd_ctx_read_impl`
(source lines 140-173), together with the shared tail at lines 177-182:
query the pending set (propagating a query error), return `EAGAIN` when
no monitored signal is pending, otherwise attempt the single-signal
wait; a failure with `EINVAL` or `EAGAIN` retries the loop, any other
failure propagates, and a claimed signal is returned as the identifier. -/
def read_iter (sigs : Nat) (env : IterEnv) : StepRes :=
  let r := signalfd_has_pending sigs env.query
  if r.1 != 0 then .done r.1 none
  else if !r.2.1 then .done EAGAIN none
  else
    match env.wait with
    | .claimed s => .done 0 (some s)
    | .failed e => if e == EINVAL || e == EAGAIN then .retry else .done e none

/-- The OpenBSD-variant claim loop of `signalfd_ctx_read_impl` (source
lines 139-173). The loop carries no state between iterations; each
iteration consumes one environment entry. The result pairs the errno
with the `ident` cell's value after the call (`ident0` when the call
does not write it); `none` means the supplied environment trace ended
before the loop resolved. -/
def signalfd_ctx_read_impl_obsd (sigs : Nat) (ident0 : Nat) :
    List IterEnv → Option (Nat × Nat)
  | [] => none
  | env :: rest =>
    match read_iter sigs env with
    | .retry => signalfd_ctx_read_impl_obsd sigs ident0 rest
    | .done ec w => some (ec, w.getD ident0)

/-- The default-variant claim step of `signalfd_ctx_read_impl` (source
lines 175-182): one `sigtimedwait` call over the whole monitored set
with a zero timeout; on failure the errno is returned and `ident` is
untouched, on success the claimed identifier is written. -/
def signalfd_ctx_read_impl_default (ident0 : Nat) (stw : Except Nat Nat) :
    Nat × Nat :=
  match stw with
  | .error e => (e, ident0)
  | .ok s => (0, s)

/-- Environment of one `signalfd_ctx_read_impl` call: the platform
variant with the outcomes its kernel calls produce. -/
inductive ImplEnv where
  | dflt (stw : Except Nat Nat)
  | openbsd (trace : List IterEnv)
deriving Repr

/-- Embedding of `signalfd_ctx_read_impl` (source lines 128-183) over
either platform variant. -/
def signalfd_ctx_read_impl (sigs : Nat) (ident0 : Nat) :
    ImplEnv → Option (Nat × Nat)
  | .dflt stw => some (signalfd_ctx_read_impl_default ident0 stw)
  | .openbsd trace => signalfd_ctx_read_impl_obsd sigs ident0 trace

/-- Embedding of `signalfd_ctx_read` (source lines 219-232): run the
claim step, and when it returns success, `EAGAIN` or `EWOULDBLOCK`, run
the reconciliation step (`signalfd_ctx_clear_signal` with
`was_triggered` false). The result carries the returned errno, the
`ident` cell after the call, whether the reconciliation step ran, and
the kernel state on return (`st` is the kernel state when the
reconciliation step begins). -/
def signalfd_ctx_read (sigs : Nat) (ident0 : Nat) (ienv : ImplEnv)
    (st : KernelState) (cenv : ClearEnv) :
    Option (Nat × Nat × Bool × KernelState) :=
  (signalfd_ctx_read_impl sigs ident0 ienv).map (fun r =>
    if r.1 == 0 || r.1 == EAGAIN || r.1 == EWOULDBLOCK then
      (r.1, r.2, true, (signalfd_ctx_clear_signal sigs false st cenv).2)
    else
      (r.1, r.2, false, st))

/-- Kernel contract for one claim-loop iteration: a failing query or
wait sets a nonzero errno, and a claimed signal is the one the
iteration's singleton wait mask named — the lowest-numbered pending
monitored signal, `ffs` of the intersection computed from that
iteration's own query (source lines 157-158). -/
def IterEnvWFb (sigs : Nat) (env : IterEnv) : Bool :=
  (match env.query with
   | .err e => e != 0
   | .ok _ => true) &&
  (match env.wait with
   | .failed e => e != 0
   | .claimed s =>
     match env.query with
     | .ok raw => s == ffs (sigandset raw sigs)
     | .err _ => true)

/-- Kernel contract for one zero-timeout `sigtimedwait` call over the
monitored set, with `pending` the process pending mask at the moment of
the call: a failure sets a nonzero errno, an empty monitored pending
set yields `EAGAIN`, and a claimed signal is a pending member of the
monitored set. -/
def STWContractb (sigs pending : Nat) (stw : Except Nat Nat) : Bool :=
  match stw with
  | .error e => e != 0 && (!(sigandset pending sigs == 0) || e == EAGAIN)
  | .ok s => sigismember (sigandset pending sigs) s

/-- Timespec argument of a kernel wait, seconds and nanoseconds. -/
structure Timespec where
  tv_sec : Int
  tv_nsec : Int
deriving Repr, DecidableEq

/-- Timeout passed to `sigtimedwait` by the default variant of
`signalfd_ctx_read_impl` (source line 175): the zero timespec. -/
def sigtimedwait_timeout : Timespec := ⟨0, 0⟩

/-- Timeout passed to `__thrsigdivert` by the OpenBSD variant of
`signalfd_ctx_read_impl` (source line 166): a deliberately invalid
timespec, chosen so the call fails immediately with `EINVAL` instead of
logging to dmesg as the zero timespec would. -/
def thrsigdivert_timeout : Timespec := ⟨0, -1⟩

/-- The timeouts of every kernel wait issued by `read` (either platform
variant); `poll` issues no kernel wait at all. -/
def readPollWaitTimeouts : List Timespec :=
  [sigtimedwait_timeout, thrsigdivert_timeout]

/-- A timespec is the immediate (zero) timeout. -/
def isZeroTimeout (t : Timespec) : Bool :=
  t.tv_sec == 0 && t.tv_nsec == 0

/-- A timespec makes a wait return without sleeping: either it is the
zero timeout, or it is invalid (nanoseconds outside [0, 10^9)), which
the kernel rejects with `EINVAL` before any sleep. -/
def isNonBlockingTimeout (t : Timespec) : Bool :=
  isZeroTimeout t || t.tv_nsec < 0 || t.tv_nsec ≥ 1000000000

theorem read_iter_err (sigs e : Nat) (wres : WaitRes) (he : e ≠ 0) :
    read_iter sigs ⟨.err e, wres⟩ = .done e none := by
  simp [read_iter, signalfd_has_pending, he]

theorem read_iter_empty (sigs raw : Nat) (wres : WaitRes)
    (hp : raw &&& sigs = 0) :
    read_iter sigs ⟨.ok raw, wres⟩ = .done EAGAIN none := by
  simp [read_iter, signalfd_has_pending, sigandset, sigisemptyset, hp]

theorem read_iter_claimed (sigs raw s : Nat) (hp : raw &&& sigs ≠ 0) :
    read_iter sigs ⟨.ok raw, .claimed s⟩ = .done 0 (some s) := by
  simp [read_iter, signalfd_has_pending, sigandset, sigisemptyset, hp]

theorem read_iter_failed_benign (sigs raw e : Nat) (hp : raw &&& sigs ≠ 0)
    (hb : e = EINVAL ∨ e = EAGAIN) :
    read_iter sigs ⟨.ok raw, .failed e⟩ = .retry := by
  rcases hb with hb | hb <;>
    simp [read_iter, signalfd_has_pending, sigandset, sigisemptyset, hp, hb]

theorem read_iter_failed_real (sigs raw e : Nat) (hp : raw &&& sigs ≠ 0)
    (hb1 : e ≠ EINVAL) (hb2 : e ≠ EAGAIN) :
    read_iter sigs ⟨.ok raw, .failed e⟩ = .done e none := by
  simp [read_iter, signalfd_has_pending, sigandset, sigisemptyset, hp, hb1, hb2]

theorem read_iter_retry_iff (sigs : Nat) (env : IterEnv) :
    read_iter sigs env = .retry ↔
      ∃ raw e, env.query = .ok raw ∧ sigandset raw sigs ≠ 0 ∧
        env.wait = .failed e ∧ (e = EINVAL ∨ e = EAGAIN) := by
  obtain ⟨q, wres⟩ := env
  cases q with
  | err e =>
    constructor
    · intro h
      by_cases he : e = 0
      · subst he
        simp [read_iter, signalfd_has_pending] at h
      · rw [read_iter_err sigs e wres he] at h
        cases h
    · rintro ⟨raw, e2, hraw, _⟩
      cases hraw
  | ok raw =>
    by_cases hp : raw &&& sigs = 0
    · rw [read_iter_empty sigs raw wres hp]
      constructor
      · intro h
        cases h
      · rintro ⟨raw2, e2, hraw, hne, _⟩
        cases hraw
        exact absurd hp hne
    · cases wres with
      | claimed s =>
        rw [read_iter_claimed sigs raw s hp]
        constructor
        · intro h
          cases h
        · rintro ⟨raw2, e2, hraw, hne, hwait, _⟩
          cases hwait
      | failed e =>
        constructor
        · intro h
          by_cases hb : e = EINVAL ∨ e = EAGAIN
          · exact ⟨raw, e, rfl, hp, rfl, hb⟩
          · push_neg at hb
            rw [read_iter_failed_real sigs raw e hp hb.1 hb.2] at h
            cases h
        · rintro ⟨raw2, e2, hraw, hne, hwait, hb⟩
          cases hraw
          cases hwait
          exact read_iter_failed_benign sigs raw e hp hb

theorem read_iter_done_cases (sigs : Nat) (env : IterEnv) (ec : Nat) (w : Option Nat)
    (hwf : IterEnvWFb sigs env = true)
    (h : read_iter sigs env = .done ec w) :
    (∃ raw, env.query = .ok raw ∧ sigandset raw sigs = 0 ∧
      ec = EAGAIN ∧ w = none) ∨
    (∃ raw, env.query = .ok raw ∧ sigandset raw sigs ≠ 0 ∧
      env.wait = .claimed (ffs (sigandset raw sigs)) ∧ ec = 0 ∧
      w = some (ffs (sigandset raw sigs))) ∨
    (∃ e, env.query = .err e ∧ e ≠ 0 ∧ ec = e ∧ w = none) ∨
    (∃ raw e, env.query = .ok raw ∧ sigandset raw sigs ≠ 0 ∧
      env.wait = .failed e ∧ e ≠ EINVAL ∧ e ≠ EAGAIN ∧ e ≠ 0 ∧
      ec = e ∧ w = none) := by
  obtain ⟨q, wres⟩ := env
  unfold IterEnvWFb at hwf
  rw [Bool.and_eq_true] at hwf
  cases q with
  | err e =>
    have hne : e ≠ 0 := by simpa using hwf.1
    rw [read_iter_err sigs e wres hne] at h
    simp only [StepRes.done.injEq] at h
    exact Or.inr (Or.inr (Or.inl ⟨e, rfl, hne, h.1.symm, h.2.symm⟩))
  | ok raw =>
    by_cases hp : raw &&& sigs = 0
    · rw [read_iter_empty sigs raw wres hp] at h
      simp only [StepRes.done.injEq] at h
      exact Or.inl ⟨raw, rfl, hp, h.1.symm, h.2.symm⟩
    · cases wres with
      | claimed s =>
        have hs : s = ffs (raw &&& sigs) := by
          simpa [sigandset] using hwf.2
        rw [read_iter_claimed sigs raw s hp] at h
        simp only [StepRes.done.injEq] at h
        refine Or.inr (Or.inl ⟨raw, rfl, hp, ?_, h.1.symm, ?_⟩)
        · show WaitRes.claimed s = .claimed (ffs (sigandset raw sigs))
          rw [hs]
          simp [sigandset]
        · rw [← h.2, hs]
          simp [sigandset]
      | failed e =>
        have hne : e ≠ 0 := by simpa using hwf.2
        by_cases hb1 : e = EINVAL
        · rw [hb1] at h
          rw [read_iter_failed_benign sigs raw EINVAL hp (Or.inl rfl)] at h
          cases h
        · by_cases hb2 : e = EAGAIN
          · rw [hb2] at h
            rw [read_iter_failed_benign sigs raw EAGAIN hp (Or.inr rfl)] at h
            cases h
          · rw [read_iter_failed_real sigs raw e hp hb1 hb2] at h
            simp only [StepRes.done.injEq] at h
            exact Or.inr (Or.inr (Or.inr
              ⟨raw, e, rfl, hp, rfl, hb1, hb2, hne, h.1.symm, h.2.symm⟩))

theorem read_impl_obsd_cases (sigs ident0 : Nat)
    (trace : List IterEnv) (r : Nat × Nat)
    (hwf : trace.all (IterEnvWFb sigs) = true)
    (hres : signalfd_ctx_read_impl_obsd sigs ident0 trace = some r) :
    ∃ pre env post, trace = pre ++ env :: post ∧
      (∀ e ∈ pre, ∃ raw err, e.query = .ok raw ∧ sigandset raw sigs ≠ 0 ∧
        e.wait = .failed err ∧ (err = EINVAL ∨ err = EAGAIN)) ∧
      ((∃ raw, env.query = .ok raw ∧ sigandset raw sigs = 0 ∧
          r = (EAGAIN, ident0)) ∨
       (∃ raw, env.query = .ok raw ∧ sigandset raw sigs ≠ 0 ∧
          env.wait = .claimed (ffs (sigandset raw sigs)) ∧
          r = (0, ffs (sigandset raw sigs))) ∨
       (∃ e, env.query = .err e ∧ e ≠ 0 ∧ r = (e, ident0)) ∨
       (∃ raw e, env.query = .ok raw ∧ sigandset raw sigs ≠ 0 ∧
          env.wait = .failed e ∧ e ≠ EINVAL ∧ e ≠ EAGAIN ∧ e ≠ 0 ∧
          r = (e, ident0))) := by
  induction trace with
  | nil => cases hres
  | cons env rest ih =>
    rw [List.all_cons, Bool.and_eq_true] at hwf
    cases hstep : read_iter sigs env with
    | retry =>
      rw [signalfd_ctx_read_impl_obsd, hstep] at hres
      obtain ⟨pre, envd, post, heq, hpre, hcase⟩ := ih hwf.2 hres
      refine ⟨env :: pre, envd, post, by rw [heq]; rfl, ?_, hcase⟩
      intro e he
      rcases List.mem_cons.mp he with he | he
      · subst he
        exact (read_iter_retry_iff sigs e).mp hstep
      · exact hpre e he
    | done ec w =>
      rw [signalfd_ctx_read_impl_obsd, hstep] at hres
      cases hres
      refine ⟨[], env, rest, rfl, by simp, ?_⟩
      rcases read_iter_done_cases sigs env ec w hwf.1 hstep with
        ⟨raw, hq, hp, hec, hw⟩ | ⟨raw, hq, hp, hwait, hec, hw⟩ |
        ⟨e, hq, hne, hec, hw⟩ | ⟨raw, e, hq, hp, hwait, hb1, hb2, hne, hec, hw⟩
      · exact Or.inl ⟨raw, hq, hp, by rw [hec, hw]; rfl⟩
      · exact Or.inr (Or.inl ⟨raw, hq, hp, hwait, by rw [hec, hw]; rfl⟩)
      · exact Or.inr (Or.inr (Or.inl ⟨e, hq, hne, by rw [hec, hw]; rfl⟩))
      · exact Or.inr (Or.inr (Or.inr
          ⟨raw, e, hq, hp, hwait, hb1, hb2, hne, by rw [hec, hw]; rfl⟩))

/-- Claim C6: whenever the OpenBSD claim loop resolves within its
environment trace and the kernel outcomes respect the per-iteration
contract, the trace splits into a prefix of retried iterations — each
retried exactly because its single-signal wait failed with a code in the
benign allow-list, `EINVAL` or `EAGAIN`, with a monitored signal pending
— and one final iteration that exits the loop in one of exactly three
ways: an empty monitored pending set reported as `EAGAIN`
(`NoneReady`), a successful claim of the lowest-numbered pending
monitored signal returned as the identifier, or a propagated real error
(a query failure, or a wait failure outside the allow-list). -/
theorem claim_C6_openbsd_claim_loop (sigs ident0 : Nat)
    (trace : List IterEnv) (r : Nat × Nat)
    (hwf : trace.all (IterEnvWFb sigs) = true)
    (hres : signalfd_ctx_read_impl_obsd sigs ident0 trace = some r) :
    ∃ pre env post, trace = pre ++ env :: post ∧
      (∀ e ∈ pre, ∃ raw err, e.query = .ok raw ∧ sigandset raw sigs ≠ 0 ∧
        e.wait = .failed err ∧ (err = EINVAL ∨ err = EAGAIN)) ∧
      ((∃ raw, env.query = .ok raw ∧ sigandset raw sigs = 0 ∧
          r = (EAGAIN, ident0)) ∨
       (∃ raw, env.query = .ok raw ∧ sigandset raw sigs ≠ 0 ∧
          env.wait = .claimed (ffs (sigandset raw sigs)) ∧
          r = (0, ffs (sigandset raw sigs))) ∨
       (∃ e, env.query = .err e ∧ e ≠ 0 ∧ r = (e, ident0)) ∨
       (∃ raw e, env.query = .ok raw ∧ sigandset raw sigs ≠ 0 ∧
          env.wait = .failed e ∧ e ≠ EINVAL ∧ e ≠ EAGAIN ∧ e ≠ 0 ∧
          r = (e, ident0))) :=
  read_impl_obsd_cases sigs ident0 trace r hwf hres

/-- Witness for claim C6 at a concrete input: signal set containing
signal 1, a first iteration retried on the benign `EINVAL` failure, a
second iteration claiming signal 1. -/
theorem claim_C6_witness :
    (([⟨.ok 1, .failed EINVAL⟩, ⟨.ok 1, .claimed 1⟩] :
        List IterEnv).all (IterEnvWFb 1) = true) ∧
    (signalfd_ctx_read_impl_obsd 1 0
        [⟨.ok 1, .failed EINVAL⟩, ⟨.ok 1, .claimed 1⟩] = some (0, 1)) ∧
    (∃ pre env post,
      ([⟨.ok 1, .failed EINVAL⟩, ⟨.ok 1, .claimed 1⟩] :
        List IterEnv) = pre ++ env :: post ∧
      (∀ e ∈ pre, ∃ raw err, e.query = .ok raw ∧ sigandset raw 1 ≠ 0 ∧
        e.wait = .failed err ∧ (err = EINVAL ∨ err = EAGAIN)) ∧
      ((∃ raw, env.query = .ok raw ∧ sigandset raw 1 = 0 ∧
          (0, 1) = (EAGAIN, 0)) ∨
       (∃ raw, env.query = .ok raw ∧ sigandset raw 1 ≠ 0 ∧
          env.wait = .claimed (ffs (sigandset raw 1)) ∧
          (0, 1) = (0, ffs (sigandset raw 1))) ∨
       (∃ e, env.query = .err e ∧ e ≠ 0 ∧ (0, 1) = (e, 0)) ∨
       (∃ raw e, env.query = .ok raw ∧ sigandset raw 1 ≠ 0 ∧
          env.wait = .failed e ∧ e ≠ EINVAL ∧ e ≠ EAGAIN ∧ e ≠ 0 ∧
          (0, 1) = (e, 0)))) :=
  ⟨by decide, by decide,
    claim_C6_openbsd_claim_loop 1 0
      [⟨.ok 1, .failed EINVAL⟩, ⟨.ok 1, .claimed 1⟩] (0, 1)
      (by decide) (by decide)⟩

theorem signalfd_ctx_read_proj (sigs ident0 : Nat) (ienv : ImplEnv)
    (st : KernelState) (cenv : ClearEnv) (out : Nat × Nat × Bool × KernelState)
    (hres : signalfd_ctx_read sigs ident0 ienv st cenv = some out) :
    signalfd_ctx_read_impl sigs ident0 ienv = some (out.1, out.2.1) := by
  cases himpl : signalfd_ctx_read_impl sigs ident0 ienv with
  | none =>
    rw [signalfd_ctx_read, himpl] at hres
    cases hres
  | some v =>
    obtain ⟨ec, id1⟩ := v
    rw [signalfd_ctx_read, himpl] at hres
    simp only [Option.map_some', Option.some.injEq] at hres
    split at hres <;> rw [← hres]

/-- Claim C3: a successful `read` only ever reports a signal identifier
that is a member of the monitor's configured signal set, on either
platform variant, provided the kernel calls respect their contracts
(`sigtimedwait` claims only members of the set it is given, and the
singleton wait claims only the signal its mask names). -/
theorem claim_C3_read_identifier_in_set (sigs ident0 : Nat) :
    (∀ (pending : Nat) (stw : Except Nat Nat) (st : KernelState)
        (cenv : ClearEnv) (out : Nat × Nat × Bool × KernelState),
      STWContractb sigs pending stw = true →
      signalfd_ctx_read sigs ident0 (.dflt stw) st cenv = some out →
      out.1 = 0 → sigismember sigs out.2.1 = true) ∧
    (∀ (trace : List IterEnv) (st : KernelState) (cenv : ClearEnv)
        (out : Nat × Nat × Bool × KernelState),
      trace.all (IterEnvWFb sigs) = true →
      signalfd_ctx_read sigs ident0 (.openbsd trace) st cenv = some out →
      out.1 = 0 → sigismember sigs out.2.1 = true) := by
  constructor
  · intro pending stw st cenv out hc hres hec
    have himpl := signalfd_ctx_read_proj sigs ident0 (.dflt stw) st cenv out hres
    cases stw with
    | error e =>
      simp only [signalfd_ctx_read_impl, signalfd_ctx_read_impl_default,
        Option.some.injEq, Prod.mk.injEq] at himpl
      unfold STWContractb at hc
      rw [Bool.and_eq_true] at hc
      have he : e ≠ 0 := by simpa using hc.1
      exact absurd (himpl.1.trans hec) he
    | ok s =>
      simp only [signalfd_ctx_read_impl, signalfd_ctx_read_impl_default,
        Option.some.injEq, Prod.mk.injEq] at himpl
      unfold STWContractb at hc
      rw [← himpl.2]
      simp only [sigismember, sigandset] at hc ⊢
      exact land_testBit_right hc
  · intro trace st cenv out hwf hres hec
    have himpl := signalfd_ctx_read_proj sigs ident0 (.openbsd trace) st cenv out hres
    simp only [signalfd_ctx_read_impl] at himpl
    obtain ⟨pre, env, post, heq, hpre, hcase⟩ :=
      read_impl_obsd_cases sigs ident0 trace (out.1, out.2.1) hwf himpl
    rcases hcase with ⟨raw, hq, hp, hr⟩ | ⟨raw, hq, hp, hwait, hr⟩ |
      ⟨e, hq, hne, hr⟩ | ⟨raw, e, hq, hp, hwait, hb1, hb2, hne, hr⟩
    · rw [Prod.mk.injEq] at hr
      rw [hec] at hr
      exact absurd hr.1.symm (by simp [EAGAIN])
    · rw [Prod.mk.injEq] at hr
      rw [hr.2]
      have hne : sigandset raw sigs ≠ 0 := hp
      have hbit := testBit_ffs hne
      simp only [sigismember, sigandset] at hbit ⊢
      exact land_testBit_right hbit
    · rw [Prod.mk.injEq] at hr
      exact absurd (hr.1.symm.trans hec) hne
    · rw [Prod.mk.injEq] at hr
      exact absurd (hr.1.symm.trans hec) hne

/-- Witness for claim C3 at a concrete input: the default variant claims
signal 2 out of a monitored set containing exactly signal 2. -/
theorem claim_C3_witness :
    (STWContractb 2 2 (.ok 2) = true) ∧
    (signalfd_ctx_read 2 0 (.dflt (.ok 2)) ⟨2, false⟩ ClearEnv.quiet =
      some (0, 2, true,
        (signalfd_ctx_clear_signal 2 false ⟨2, false⟩ ClearEnv.quiet).2)) ∧
    (sigismember 2 2 = true) :=
  ⟨by decide, by decide,
    (claim_C3_read_identifier_in_set 2 0).1 2 (.ok 2) ⟨2, false⟩ ClearEnv.quiet
      (0, 2, true, (signalfd_ctx_clear_signal 2 false ⟨2, false⟩ ClearEnv.quiet).2)
      (by decide) (by decide) rfl⟩

/-- Claim C2: when no monitored signal is pending at the process level
at the moment the claim step runs, `read` returns the non-fatal
would-block status `EAGAIN` (`NoneReady`) — not a hard OS error — with
the `ident` cell untouched, and still runs the reconciliation step
afterwards. Both platform variants are covered: the default variant via
the `sigtimedwait` contract, the OpenBSD variant via a first iteration
whose query reports no monitored pending signal. -/
theorem claim_C2_read_none_pending_eagain_then_reconcile (sigs ident0 : Nat)
    (st : KernelState) (cenv : ClearEnv) :
    (∀ (pending : Nat) (stw : Except Nat Nat),
      STWContractb sigs pending stw = true → sigandset pending sigs = 0 →
      signalfd_ctx_read sigs ident0 (.dflt stw) st cenv =
        some (EAGAIN, ident0, true,
          (signalfd_ctx_clear_signal sigs false st cenv).2)) ∧
    (∀ (raw : Nat) (wres : WaitRes) (rest : List IterEnv),
      sigandset raw sigs = 0 →
      signalfd_ctx_read sigs ident0 (.openbsd (⟨.ok raw, wres⟩ :: rest)) st cenv =
        some (EAGAIN, ident0, true,
          (signalfd_ctx_clear_signal sigs false st cenv).2)) := by
  constructor
  · intro pending stw hc hp
    have hstw : stw = .error EAGAIN := by
      cases stw with
      | error e =>
        unfold STWContractb at hc
        rw [hp] at hc
        simp at hc
        rw [hc.2]
      | ok s =>
        unfold STWContractb at hc
        rw [hp] at hc
        simp [sigismember] at hc
    subst hstw
    rw [signalfd_ctx_read]
    simp only [signalfd_ctx_read_impl, signalfd_ctx_read_impl_default,
      Option.map_some']
    rw [if_pos (by decide : (EAGAIN == 0 || EAGAIN == EAGAIN ||
      EAGAIN == EWOULDBLOCK) = true)]
  · intro raw wres rest hp
    rw [signalfd_ctx_read]
    simp only [signalfd_ctx_read_impl, signalfd_ctx_read_impl_obsd,
      read_iter_empty sigs raw wres hp]
    simp only [Option.getD, Option.map_some']
    rw [if_pos (by decide : (EAGAIN == 0 || EAGAIN == EAGAIN ||
      EAGAIN == EWOULDBLOCK) = true)]

/-- Witness for claim C2 at a concrete input: empty pending set, the
`sigtimedwait` outcome `EAGAIN`, a quiescent reconciliation. -/
theorem claim_C2_witness :
    (STWContractb 1 0 (.error EAGAIN) = true) ∧ (sigandset 0 1 = 0) ∧
    (signalfd_ctx_read 1 7 (.dflt (.error EAGAIN)) ⟨0, false⟩ ClearEnv.quiet =
      some (EAGAIN, 7, true,
        (signalfd_ctx_clear_signal 1 false ⟨0, false⟩ ClearEnv.quiet).2)) :=
  ⟨by decide, by decide,
    (claim_C2_read_none_pending_eagain_then_reconcile 1 7 ⟨0, false⟩
        ClearEnv.quiet).1 0 (.error EAGAIN) (by decide) (by decide)⟩

theorem read_iter_done_some (sigs : Nat) (env : IterEnv) (ec s : Nat)
    (h : read_iter sigs env = .done ec (some s)) : ec = 0 := by
  obtain ⟨q, wres⟩ := env
  cases q with
  | err e =>
    by_cases he : e = 0
    · subst he
      simp [read_iter, signalfd_has_pending] at h
    · rw [read_iter_err sigs e wres he] at h
      simp at h
  | ok raw =>
    by_cases hp : raw &&& sigs = 0
    · rw [read_iter_empty sigs raw wres hp] at h
      simp at h
    · cases wres with
      | claimed s2 =>
        rw [read_iter_claimed sigs raw s2 hp] at h
        simp only [StepRes.done.injEq] at h
        exact h.1.symm
      | failed e =>
        by_cases hb : e = EINVAL ∨ e = EAGAIN
        · rw [read_iter_failed_benign sigs raw e hp hb] at h
          cases h
        · push_neg at hb
          rw [read_iter_failed_real sigs raw e hp hb.1 hb.2] at h
          simp at h

theorem read_impl_obsd_ident_on_error (sigs ident0 : Nat) (trace : List IterEnv)
    (ec id1 : Nat)
    (h : signalfd_ctx_read_impl_obsd sigs ident0 trace = some (ec, id1))
    (hec : ec ≠ 0) : id1 = ident0 := by
  induction trace with
  | nil => cases h
  | cons env rest ih =>
    rw [signalfd_ctx_read_impl_obsd] at h
    cases hstep : read_iter sigs env with
    | retry =>
      rw [hstep] at h
      exact ih h
    | done ec2 w =>
      rw [hstep] at h
      simp only [Option.some.injEq, Prod.mk.injEq] at h
      cases w with
      | none => simpa using h.2.symm
      | some s =>
        exfalso
        apply hec
        rw [← h.1]
        exact read_iter_done_some sigs env ec2 s hstep

/-- Claim C10: `read` writes the caller's `ident` cell only on success;
whenever it returns `NoneReady` or any OS error (any nonzero errno), the
`ident` cell still holds its prior value, on either platform variant. -/
theorem claim_C10_ident_unchanged_unless_success (sigs ident0 : Nat)
    (ienv : ImplEnv) (st : KernelState) (cenv : ClearEnv)
    (out : Nat × Nat × Bool × KernelState)
    (hres : signalfd_ctx_read sigs ident0 ienv st cenv = some out)
    (hec : out.1 ≠ 0) :
    out.2.1 = ident0 := by
  have himpl := signalfd_ctx_read_proj sigs ident0 ienv st cenv out hres
  cases ienv with
  | dflt stw =>
    cases stw with
    | error e =>
      simp only [signalfd_ctx_read_impl, signalfd_ctx_read_impl_default,
        Option.some.injEq, Prod.mk.injEq] at himpl
      exact himpl.2.symm
    | ok s =>
      simp only [signalfd_ctx_read_impl, signalfd_ctx_read_impl_default,
        Option.some.injEq, Prod.mk.injEq] at himpl
      exact absurd himpl.1.symm hec
  | openbsd trace =>
    simp only [signalfd_ctx_read_impl] at himpl
    exact read_impl_obsd_ident_on_error sigs ident0 trace out.1 out.2.1 himpl hec

/-- Witness for claim C10 at a concrete input: the claim step fails with
`EINTR` and the `ident` cell keeps its prior value 9. -/
theorem claim_C10_witness :
    (signalfd_ctx_read 1 9 (.dflt (.error EINTR)) ⟨0, false⟩ ClearEnv.quiet =
      some (EINTR, 9, false, ⟨0, false⟩)) ∧ (EINTR ≠ 0) ∧
    (((EINTR, 9, false, (⟨0, false⟩ : KernelState)) :
        Nat × Nat × Bool × KernelState).2.1 = 9) :=
  ⟨by decide, by decide,
    claim_C10_ident_unchanged_unless_success 1 9 (.dflt (.error EINTR))
      ⟨0, false⟩ ClearEnv.quiet (EINTR, 9, false, ⟨0, false⟩)
      (by decide) (by decide)⟩

/-- Counterexample to claim C5 as stated: not every kernel wait issued
by `read` and `poll` uses the immediate (zero) timeout — the OpenBSD
variant's consuming wait (source line 166) deliberately passes the
invalid timespec (0, -1) so the call fails immediately with `EINVAL`
rather than log to dmesg, as the source comment at lines 163-165
explains. -/
theorem claim_C5_counterexample_obsd_timeout_not_zero :
    (readPollWaitTimeouts.all isZeroTimeout) = false := by decide

/-- Claim C5 as amended: every kernel wait issued by `read` and `poll`
uses a timeout argument under which the wait returns without sleeping —
the zero timespec on the default variant, and an invalid timespec
(rejected immediately with `EINVAL`) on the OpenBSD variant — so `read`
and `poll` never block regardless of whether a signal is pending. -/
theorem claim_C5_amended_waits_return_immediately :
    (readPollWaitTimeouts.all isNonBlockingTimeout) = true := by decide
